import Mathlib

/-!
Verification of the proFit run-orchestration components against their
natural-language specification.

Shallow embedding of:
* `profit/run/test.py` — `InternalRunner`, `InternalInterface`, `MockupWorker`,
  `mockup_f`;
* `profit/pre.py` — `fill_run_dir`, `fill_template`;
* `profit/config.py` — `AbstractConfig.update`, `AbstractConfig.create_subconfig`,
  `DefaultConfig.update`.

Python mutation becomes explicit state passing; `asyncio` effects, logging and
the filesystem become explicit traces; Python exceptions become `Except`.
The base classes `Runner`, `RunnerInterface`, `Worker` and `Interface`
(from `profit/run/runner.py` and `profit/run/worker.py`) and `profit.util`
are not part of the given sources; the fields of theirs that the code in
`test.py` touches are modelled from the spec and marked as such.
-/

namespace Profit

/-! ## Run Registry and the internal Interface (`profit/run/test.py`)

`InternalInterface` accesses `self.parent.input[run_id]`,
`self.parent.output[run_id]`, `self.parent.internal['TIME'][run_id]` and
`self.parent.internal['DONE'][run_id]`, where `parent` is the
`RunnerInterface` owned by the runner. -/

/-- Modelled from the spec: the Run Registry held by the Runner-side
`RunnerInterface` (`profit/run/runner.py` is absent from the sources) — "a
mapping from run id to (input row, output row, status, elapsed time)": an
`input` table, an `output` table, and the `internal` record with per-run
`TIME` and `DONE` cells, each indexed by run id.  Rows are abstract types
`I` (input) and `O` (output). -/
structure Registry (I O : Type) where
  input : Nat → I
  output : Nat → O
  timeCell : Nat → Int
  doneCell : Nat → Bool

/-- State of an `InternalInterface` (test.py lines 62–77).  `__init__` sets
`self.ready = False` and does not create the `parent` attribute; `connect`
stores the parent and sets `ready`.  `hasParent` records whether the Python
attribute `parent` exists; `run_id` is `self.worker.run_id`. -/
structure InternalInterface where
  run_id : Nat
  ready : Bool
  hasParent : Bool

/-- `InternalInterface.__init__`: `self.ready = False`, no `parent` attribute. -/
def InternalInterface.init (run_id : Nat) : InternalInterface :=
  { run_id := run_id, ready := false, hasParent := false }

/-- `InternalInterface.connect(parent)`: stores `parent` and sets `ready = True`. -/
def InternalInterface.connect (self : InternalInterface) : InternalInterface :=
  { self with ready := true, hasParent := true }

/-- Errors observable from interface operations: accessing the missing
`parent` attribute before `connect` raises Python's `AttributeError`. -/
inductive IfcError where
  | attributeError
  deriving DecidableEq, Repr

/-- `InternalInterface.input` (property getter):
`return self.parent.input[self.worker.run_id]`.  The shared registry state is
passed explicitly; if the `parent` attribute does not exist the access
raises. -/
def InternalInterface.getInput (self : InternalInterface) (reg : Registry I O) :
    Except IfcError I :=
  if self.hasParent then .ok (reg.input self.run_id) else .error .attributeError

/-- `InternalInterface.output` (property getter):
`return self.parent.output[self.worker.run_id]`. -/
def InternalInterface.getOutput (self : InternalInterface) (reg : Registry I O) :
    Except IfcError O :=
  if self.hasParent then .ok (reg.output self.run_id) else .error .attributeError

/-- Writing through the mutable output row view, as `MockupWorker.run` does with
`self.interface.output['f'] = ...`: replaces this run's output row cell. -/
def InternalInterface.setOutput (self : InternalInterface) (reg : Registry I O)
    (v : O) : Except IfcError (Registry I O) :=
  if self.hasParent then
    .ok { reg with output := Function.update reg.output self.run_id v }
  else .error .attributeError

/-- `InternalInterface.time` (property getter):
`return self.parent.internal['TIME'][self.worker.run_id]`. -/
def InternalInterface.getTime (self : InternalInterface) (reg : Registry I O) :
    Except IfcError Int :=
  if self.hasParent then .ok (reg.timeCell self.run_id) else .error .attributeError

/-- `InternalInterface.time` (setter):
`self.parent.internal['TIME'][self.worker.run_id] = value`. -/
def InternalInterface.setTime (self : InternalInterface) (reg : Registry I O)
    (v : Int) : Except IfcError (Registry I O) :=
  if self.hasParent then
    .ok { reg with timeCell := Function.update reg.timeCell self.run_id v }
  else .error .attributeError

/-- `InternalInterface.done`:
`self.parent.internal['DONE'][self.worker.run_id] = True`. -/
def InternalInterface.doneOp (self : InternalInterface) (reg : Registry I O) :
    Except IfcError (Registry I O) :=
  if self.hasParent then
    .ok { reg with doneCell := Function.update reg.doneCell self.run_id true }
  else .error .attributeError

/-- Reading this run's DONE flag on the runner side
(`self.interface.internal['DONE'][run_id]` in `check_runs`). -/
def InternalInterface.getDone (self : InternalInterface) (reg : Registry I O) :
    Except IfcError Bool :=
  if self.hasParent then .ok (reg.doneCell self.run_id) else .error .attributeError

/-! ## `InternalRunner` (`profit/run/test.py` lines 29–47)

`spawn_run` stores a worker in `self.runs` keyed by `self.next_run_id`,
starts its task, and then increments `self.next_run_id`.  `check_runs`
iterates over `list(self.runs.keys())`, warns for every run whose `DONE`
flag is false, and deletes every run from `self.runs`. -/

/-- Modelled from the spec: the state the base `Runner` class
(`profit/run/runner.py`, absent from the sources) provides to
`InternalRunner` — the in-flight run set `self.runs` (keys of the run dict,
in insertion order) and the id counter `self.next_run_id`. -/
structure InternalRunner where
  runs : List Nat
  next_run_id : Nat

/-- `InternalRunner.spawn_run`: inserts a run under key `next_run_id` into
`self.runs` and afterwards increments `next_run_id`.  Returns the new state
together with the run id assigned by this spawn. -/
def InternalRunner.spawn_run (self : InternalRunner) : InternalRunner × Nat :=
  ({ runs := self.runs ++ [self.next_run_id], next_run_id := self.next_run_id + 1 },
   self.next_run_id)

/-- `InternalRunner.check_runs`: for each `run_id` in `list(self.runs.keys())`,
warns `run_NNN likely crashed` when `self.interface.internal['DONE'][run_id]`
is false, and deletes the run.  `doneFlag` is the registry's DONE column;
the returned list is the ids warned about, in iteration order. -/
def InternalRunner.check_runs (self : InternalRunner) (doneFlag : Nat → Bool) :
    InternalRunner × List Nat :=
  ({ runs := [], next_run_id := self.next_run_id },
   self.runs.filter (fun run_id => !doneFlag run_id))

/-- An orchestration step on an `InternalRunner`: a `spawn_run` call or a
`check_runs` call (the latter against the DONE column it observes). -/
inductive RunnerOp where
  | spawn
  | check (doneFlag : Nat → Bool)

/-- Execute a sequence of orchestration steps, collecting the run ids
assigned by the `spawn_run` calls, in order. -/
def InternalRunner.assignedIds (self : InternalRunner) : List RunnerOp → List Nat
  | [] => []
  | .spawn :: ops => self.next_run_id :: (self.spawn_run).1.assignedIds ops
  | .check d :: ops => (self.check_runs d).1.assignedIds ops

/-! ## `mockup_f` and `MockupWorker` (`profit/run/test.py` lines 22–25, 118–128)

Numeric values are embedded as rationals; the claims are about which
function of the inputs is computed, and every literal in the source
(`0.25`, `0.5`, `0.6`, `1`, `3`, `5`) is an exact rational. -/

/-- `mockup_f(r, u, v, a, b)`: the Rosenbrock function
`(a - x)**2 + b * (y - x**2)**2` evaluated at
`x = (r - 0.5) + u - 5`, `y = 1 + 3 * (v - 0.6)`. -/
def mockup_f (r u v a b : ℚ) : ℚ :=
  let rosenbrock : ℚ → ℚ → ℚ := fun x y => (a - x) ^ 2 + b * (y - x ^ 2) ^ 2
  rosenbrock ((r - 1/2) + u - 5) (1 + 3 * (v - 3/5))

/-- A structured-array row: named fields in schema order.  `row.dtype.names`
is `row.map Prod.fst`. -/
abbrev Row := List (String × ℚ)

/-- `row.dtype.names`: the field names of a structured row, in order. -/
def dtypeNames (row : Row) : List String := row.map Prod.fst

/-- `row[name]` for a structured row (field names are unique in a dtype, so
the first binding is the field's value). -/
def getField (row : Row) (name : String) : Option ℚ := row.lookup name

/-- `row[name] = v`: overwrite the named field of a structured row. -/
def setField (row : Row) (name : String) (v : ℚ) : Row :=
  row.map (fun p => if p.1 = name then (name, v) else p)

/-- `MockupWorker.run`: starts from
`kwargs = {'r': 0.25, 'u': 0.5, 'v': 0.5, 'a': 1, 'b': 3}`, overwrites each
entry whose key is a field of the input row with that field's value, and if
`'f'` is a field of the output row writes `mockup_f(**kwargs)` to it.
Takes the worker's input row and current output row and returns the output
row after the run (logging has no observable effect on rows). -/
def MockupWorker.run (input output : Row) : Row :=
  let pick : String → ℚ → ℚ := fun name dflt =>
    if name ∈ dtypeNames input then (getField input name).getD dflt else dflt
  let r := pick "r" (1/4)
  let u := pick "u" (1/2)
  let v := pick "v" (1/2)
  let a := pick "a" 1
  let b := pick "b" 3
  if "f" ∈ dtypeNames output then setField output "f" (mockup_f r u v a b)
  else output

/-! ## `fill_template` (`profit/pre.py` lines 59–69)

For each file under the run directory, `fill_template` rewrites its content
with `content.format_map(util.SafeDict(rec2dict(params)))`.  A file's
content is embedded as a parsed sequence of literal pieces and named
placeholders; `str.format_map(m)` concatenates literals and looked-up
placeholder values, raising `KeyError` when a lookup fails. -/

/-- One piece of a template file: literal text or a named placeholder
(`\x7bname\x7d`). -/
inductive Tok where
  | lit (s : String)
  | ph (name : String)
  deriving DecidableEq, Repr

/-- `str.format_map(m)`: concatenate the pieces, substituting each
placeholder by `m[name]`; a failed lookup raises `KeyError`. -/
def strFormatMap : List Tok → (String → Option String) → Except Unit String
  | [], _ => .ok ""
  | .lit s :: ts, g => do
      let rest ← strFormatMap ts g
      return s ++ rest
  | .ph n :: ts, g =>
      match g n with
      | some v => do
          let rest ← strFormatMap ts g
          return v ++ rest
      | none => .error ()

/-- `rec2dict(rec)` (`profit/pre.py` lines 6–7):
`{name: rec[name] for name in rec.dtype.names}`, with field values rendered
to text by the formatting step (`render`). -/
def rec2dict (render : ℚ → String) (rec : Row) : List (String × String) :=
  (dtypeNames rec).map (fun name => (name, render ((getField rec name).getD 0)))

/-- Modelled from the spec: `util.SafeDict` (`profit/util` is absent from the
sources) — lookups of keys absent from the row leave the placeholder
untouched, so `m[name]` never fails and yields the placeholder text
`\x7bname\x7d` itself for unknown names. -/
def SafeDict.get (d : List (String × String)) (k : String) : Option String :=
  some ((d.lookup k).getD ("\x7b" ++ k ++ "\x7d"))

/-- `fill_template` applied to one file's parsed content: rewrite it with
`content.format_map(SafeDict(rec2dict(params)))`. -/
def fill_template (render : ℚ → String) (content : List Tok) (params : Row) :
    Except Unit String :=
  strFormatMap content (SafeDict.get (rec2dict render params))

/-- Refinement reference, following the spec's words: a placeholder whose
name is a field of the row becomes that field's value, any other
placeholder stays untouched, literals stay as they are. -/
def specSubstTok (render : ℚ → String) (params : Row) : Tok → String
  | .lit s => s
  | .ph n =>
      match getField params n with
      | some v => render v
      | none => "\x7b" ++ n ++ "\x7d"

/-- Refinement reference, following the spec's words: the whole file content
rewritten piece by piece according to `specSubstTok`. -/
def specFillTemplate (render : ℚ → String) (params : Row) : List Tok → String
  | [] => ""
  | t :: ts => specSubstTok render params t ++ specFillTemplate render params ts

/-! ## `fill_run_dir` (`profit/pre.py` lines 23–47)

For `krun` in `range(eval_points.size)`: if `run_dir/zfill(krun)` exists,
remove it (`overwrite=True`) or raise `RuntimeError` (`overwrite=False`);
then `copy_template` and `fill_template` that directory; finally
`write_input` into the run directory.  The filesystem effects are embedded
as an explicit event trace; `dirExists k` says whether run directory `k`
already exists when the loop reaches it (nothing else in the loop creates
those directories, so existence is fixed by the initial filesystem). -/

/-- A filesystem effect of `fill_run_dir`, tagged by the run index it
touches. -/
inductive FsEvent where
  | rmtree (k : Nat)
  | copy_template (k : Nat)
  | fill_template (k : Nat)
  | write_input
  deriving DecidableEq, Repr

/-- The loop body of `fill_run_dir` over the remaining run indices,
accumulating the emitted filesystem events.  `RuntimeError` carries the
offending index and the events emitted before the raise. -/
def fillRunDirLoop (dirExists : Nat → Bool) (overwrite : Bool) :
    List Nat → List FsEvent → Except (Nat × List FsEvent) (List FsEvent)
  | [], acc => .ok (acc ++ [.write_input])
  | krun :: ks, acc =>
      if dirExists krun then
        if overwrite then
          fillRunDirLoop dirExists overwrite ks
            (acc ++ [.rmtree krun, .copy_template krun, .fill_template krun])
        else .error (krun, acc)
      else
        fillRunDirLoop dirExists overwrite ks
          (acc ++ [.copy_template krun, .fill_template krun])

/-- `fill_run_dir(eval_points, ..., overwrite)` for `eval_points.size = size`:
iterate over `range(size)` and finish with `write_input`. -/
def fill_run_dir (size : Nat) (dirExists : Nat → Bool) (overwrite : Bool) :
    Except (Nat × List FsEvent) (List FsEvent) :=
  fillRunDirLoop dirExists overwrite (List.range size) []

/-- The run index an event touches (`write_input` touches none). -/
def FsEvent.idx : FsEvent → Option Nat
  | .rmtree k => some k
  | .copy_template k => some k
  | .fill_template k => some k
  | .write_input => none

/-! ## Configuration (`profit/config.py`)

`AbstractConfig.update` (lines 59–76), `AbstractConfig.create_subconfig`
(lines 95–125) and `DefaultConfig` (lines 705–730).  A config object's
Python attributes are an association list of named values; a value is an
atom or a dict (the only distinction `update` makes, via
`isinstance(attr, dict)`).  Warnings are recorded by the name they
complain about (the surrounding message text carries no further data). -/

/-- A configuration value: an atom (string, number, …) or a dict. -/
inductive CVal where
  | atom (s : String)
  | dict (entries : List (String × CVal))
  deriving Repr

/-- A config object: its attributes (`vars(self)`) and the keys of its
class-level `labels` registry. -/
structure ConfigObj where
  attrs : List (String × CVal)
  labels : List String

/-- `setattr(self, name, value)`: overwrite the existing attribute, or add a
new one. -/
def setattrC (attrs : List (String × CVal)) (name : String) (v : CVal) :
    List (String × CVal) :=
  if name ∈ attrs.map Prod.fst then
    attrs.map (fun p => if p.1 = name then (name, v) else p)
  else attrs ++ [(name, v)]

/-- Python `dict.update`: insert or overwrite each key of the second dict
into the first. -/
def dictUpdate (d e : List (String × CVal)) : List (String × CVal) :=
  e.foldl (fun d p => setattrC d p.1 p.2) d

/-- Python errors surfaced by `update`: `dict.update` applied to a
non-mapping raises. -/
inductive PyErr where
  | typeError
  deriving DecidableEq, Repr

/-- One iteration of the loop in `AbstractConfig.update`: if
`hasattr(self, name) or name in map(str.lower, self.labels)` then merge into
an existing dict attribute or `setattr`; otherwise warn that the parameter
may be unused and `setattr` anyway.  Returns the updated object and the
warned names. -/
def AbstractConfig.updateOne (c : ConfigObj) (name : String) (value : CVal) :
    Except PyErr (ConfigObj × List String) :=
  if name ∈ c.attrs.map Prod.fst ∨ name ∈ c.labels.map String.toLower then
    match c.attrs.lookup name with
    | some (.dict d) =>
        match value with
        | .dict e => .ok ({ c with attrs := setattrC c.attrs name (.dict (dictUpdate d e)) }, [])
        | .atom _ => .error .typeError
    | _ => .ok ({ c with attrs := setattrC c.attrs name value }, [])
  else
    .ok ({ c with attrs := setattrC c.attrs name value }, [name])

/-- `AbstractConfig.update(**entries)`: fold `updateOne` over the entries,
collecting warnings. -/
def AbstractConfig.update (c : ConfigObj) (entries : List (String × CVal)) :
    Except PyErr (ConfigObj × List String) :=
  entries.foldlM
    (fun (st : ConfigObj × List String) p => do
      let (c', ws) ← AbstractConfig.updateOne st.1 p.1 p.2
      return (c', st.2 ++ ws))
    (c, [])

/-- One iteration of the loop in `DefaultConfig.update`: identical to
`AbstractConfig.updateOne` except that the unknown-name branch sets the
attribute without any warning. -/
def DefaultConfig.updateOne (c : ConfigObj) (name : String) (value : CVal) :
    Except PyErr (ConfigObj × List String) :=
  if name ∈ c.attrs.map Prod.fst ∨ name ∈ c.labels.map String.toLower then
    match c.attrs.lookup name with
    | some (.dict d) =>
        match value with
        | .dict e => .ok ({ c with attrs := setattrC c.attrs name (.dict (dictUpdate d e)) }, [])
        | .atom _ => .error .typeError
    | _ => .ok ({ c with attrs := setattrC c.attrs name value }, [])
  else
    .ok ({ c with attrs := setattrC c.attrs name value }, [])

/-- `DefaultConfig.update(**entries)`. -/
def DefaultConfig.update (c : ConfigObj) (entries : List (String × CVal)) :
    Except PyErr (ConfigObj × List String) :=
  entries.foldlM
    (fun (st : ConfigObj × List String) p => do
      let (c', ws) ← DefaultConfig.updateOne st.1 p.1 p.2
      return (c', st.2 ++ ws))
    (c, [])

/-- Outcome of the class-resolution step of `create_subconfig`:
which registered config class the sub config was constructed from plus the
warnings issued (recorded by the class name they complain about), or a
propagated exception. -/
inductive SubconfigOutcome where
  | constructed (cls : String) (warnings : List String)
  | raised
  deriving DecidableEq, Repr

/-- `AbstractConfig.create_subconfig` with `'class' in entries` (config.py
lines 101–107): try `self.labels[label][entries['class']]()`; on `KeyError`
fall back to `self.labels[label]['default'](**entries)` — `DefaultConfig`,
whose `__init__` warns `Using default config for <class>` — and if no
`'default'` entry is registered either, the `KeyError` propagates.
`registered` is the list of class names registered under the label. -/
def create_subconfig_class (registered : List String) (cls : String) :
    SubconfigOutcome :=
  if cls ∈ registered then .constructed cls []
  else if "default" ∈ registered then .constructed "default" [cls]
  else .raised

/-- What a connected interface observes of the registry: its four accessors.
`sameView i reg reg'` says `i` cannot distinguish `reg'` from `reg`. -/
def sameView (i : InternalInterface) (reg reg' : Registry I O) : Prop :=
  i.getInput reg' = i.getInput reg ∧ i.getOutput reg' = i.getOutput reg ∧
  i.getTime reg' = i.getTime reg ∧ i.getDone reg' = i.getDone reg

/-- A concrete registry over `Nat` rows, used to instantiate the theorems. -/
def regA : Registry Nat Nat :=
  { input := fun _ => 0, output := fun _ => 0, timeCell := fun _ => 0,
    doneCell := fun _ => false }

/-- A connected interface for run id 0. -/
def ifcA : InternalInterface := (InternalInterface.init 0).connect

/-- A connected interface for run id 1. -/
def ifcB : InternalInterface := (InternalInterface.init 1).connect

/-! ## Theorems -/

/-- C1: for every pair of connected interfaces with distinct run ids, data
written through one run's Interface (its output row, time cell, or done
flag) is never observable through the other run's Interface: each write
succeeds and leaves all four accessors of the other interface unchanged,
because every accessor of `InternalInterface` touches only the registry
cells indexed by its own worker's `run_id`. -/
theorem claim_C1 {I O : Type} (i₁ i₂ : InternalInterface) (reg : Registry I O)
    (vO : O) (vT : Int) (h₁ : i₁.hasParent = true) (h₂ : i₂.hasParent = true)
    (hne : i₁.run_id ≠ i₂.run_id) :
    (∃ regO, i₁.setOutput reg vO = .ok regO ∧ sameView i₂ reg regO) ∧
    (∃ regT, i₁.setTime reg vT = .ok regT ∧ sameView i₂ reg regT) ∧
    (∃ regD, i₁.doneOp reg = .ok regD ∧ sameView i₂ reg regD) := by
  have hne' : i₂.run_id ≠ i₁.run_id := Ne.symm hne
  refine ⟨⟨{ reg with output := Function.update reg.output i₁.run_id vO }, ?_, ?_⟩,
          ⟨{ reg with timeCell := Function.update reg.timeCell i₁.run_id vT }, ?_, ?_⟩,
          ⟨{ reg with doneCell := Function.update reg.doneCell i₁.run_id true }, ?_, ?_⟩⟩ <;>
    simp [InternalInterface.setOutput, InternalInterface.setTime,
      InternalInterface.doneOp, sameView, InternalInterface.getInput,
      InternalInterface.getOutput, InternalInterface.getTime,
      InternalInterface.getDone, h₁, h₂, Function.update_noteq hne']

/-- C1, instantiated: run ids 0 and 1 over a concrete registry. -/
theorem claim_C1_witness :
    (∃ regO, ifcA.setOutput regA 7 = .ok regO ∧ sameView ifcB regA regO) ∧
    (∃ regT, ifcA.setTime regA 5 = .ok regT ∧ sameView ifcB regA regT) ∧
    (∃ regD, ifcA.doneOp regA = .ok regD ∧ sameView ifcB regA regD) :=
  claim_C1 ifcA ifcB regA 7 5 rfl rfl (by decide)

/-- C4: on a connected interface, `done()` sets this run's DONE flag to true
and changes nothing else, and a second `done()` returns the registry
unchanged without error — calling `done()` twice leaves exactly the state of
calling it once. -/
theorem claim_C4 {I O : Type} (i : InternalInterface) (reg : Registry I O)
    (h : i.hasParent = true) :
    ∃ reg₁, i.doneOp reg = .ok reg₁ ∧ i.doneOp reg₁ = .ok reg₁ ∧
      reg₁.doneCell i.run_id = true ∧
      reg₁.input = reg.input ∧ reg₁.output = reg.output ∧
      reg₁.timeCell = reg.timeCell ∧
      (∀ j, j ≠ i.run_id → reg₁.doneCell j = reg.doneCell j) := by
  refine ⟨{ reg with doneCell := Function.update reg.doneCell i.run_id true },
    ?_, ?_, ?_, rfl, rfl, rfl, ?_⟩
  · simp [InternalInterface.doneOp, h]
  · simp [InternalInterface.doneOp, h, Function.update_idem]
  · simp
  · intro j hj
    simp [Function.update_noteq hj]

/-- C4, instantiated: the connected interface for run id 0 over a concrete
registry. -/
theorem claim_C4_witness :
    ∃ reg₁, ifcA.doneOp regA = .ok reg₁ ∧ ifcA.doneOp reg₁ = .ok reg₁ ∧
      reg₁.doneCell ifcA.run_id = true ∧
      reg₁.input = regA.input ∧ reg₁.output = regA.output ∧
      reg₁.timeCell = regA.timeCell ∧
      (∀ j, j ≠ ifcA.run_id → reg₁.doneCell j = regA.doneCell j) :=
  claim_C4 ifcA regA rfl

/-- C5: on a freshly initialised `InternalInterface` (`connect` not yet
called, `ready = false`) every operation — input, output (read and write),
time (read and write), done — fails (Python raises on the missing `parent`
attribute, the not-ready condition); after `connect` (`ready = true`) every
operation succeeds against the parent registry. -/
theorem claim_C5 {I O : Type} (rid : Nat) (reg : Registry I O) (vO : O) (vT : Int) :
    ((InternalInterface.init rid).ready = false ∧
     (InternalInterface.init rid).getInput reg = .error .attributeError ∧
     (InternalInterface.init rid).getOutput reg = .error .attributeError ∧
     (InternalInterface.init rid).setOutput reg vO = .error .attributeError ∧
     (InternalInterface.init rid).getTime reg = .error .attributeError ∧
     (InternalInterface.init rid).setTime reg vT = .error .attributeError ∧
     (InternalInterface.init rid).doneOp reg = .error .attributeError) ∧
    (((InternalInterface.init rid).connect).ready = true ∧
     (∃ x, ((InternalInterface.init rid).connect).getInput reg = .ok x) ∧
     (∃ x, ((InternalInterface.init rid).connect).getOutput reg = .ok x) ∧
     (∃ x, ((InternalInterface.init rid).connect).setOutput reg vO = .ok x) ∧
     (∃ x, ((InternalInterface.init rid).connect).getTime reg = .ok x) ∧
     (∃ x, ((InternalInterface.init rid).connect).setTime reg vT = .ok x) ∧
     (∃ x, ((InternalInterface.init rid).connect).doneOp reg = .ok x)) := by
  refine ⟨⟨rfl, rfl, rfl, rfl, rfl, rfl, rfl⟩,
    ⟨rfl, ⟨_, rfl⟩, ⟨_, rfl⟩, ⟨_, rfl⟩, ⟨_, rfl⟩, ⟨_, rfl⟩, ⟨_, rfl⟩⟩⟩

/-- Every run id assigned from a given runner state is at least the current
`next_run_id`. -/
theorem next_le_of_mem_assignedIds (ops : List RunnerOp) :
    ∀ (r : InternalRunner), ∀ x ∈ r.assignedIds ops, r.next_run_id ≤ x := by
  induction ops with
  | nil =>
    intro r x hx
    simp [InternalRunner.assignedIds] at hx
  | cons op ops ih =>
    intro r x hx
    cases op with
    | spawn =>
      rcases (List.mem_cons).mp hx with rfl | hx'
      · exact le_refl _
      · have h := ih (r.spawn_run).1 x hx'
        have h' : r.next_run_id + 1 ≤ x := h
        omega
    | check d =>
      exact ih (r.check_runs d).1 x hx

/-- The assigned-id trace is a strictly ascending chain. -/
theorem assignedIds_chain (ops : List RunnerOp) :
    ∀ (r : InternalRunner), List.Chain' (· < ·) (r.assignedIds ops) := by
  induction ops with
  | nil => intro r; simp [InternalRunner.assignedIds]
  | cons op ops ih =>
    intro r
    cases op with
    | spawn =>
      refine List.chain'_cons'.mpr ⟨?_, ih (r.spawn_run).1⟩
      intro y hy
      have hmem : y ∈ (r.spawn_run).1.assignedIds ops := List.mem_of_mem_head? hy
      have h : r.next_run_id + 1 ≤ y := next_le_of_mem_assignedIds ops _ y hmem
      omega
    | check d => exact ih (r.check_runs d).1

/-- C2: over every sequence of `spawn_run` and `check_runs` calls, the run
ids assigned by the spawns form a strictly increasing sequence and no run id
is ever assigned twice — `check_runs` deletes runs from the in-flight set
but leaves `next_run_id` untouched, and `spawn_run` only ever increments it. -/
theorem claim_C2 (r : InternalRunner) (ops : List RunnerOp) :
    List.Chain' (· < ·) (r.assignedIds ops) ∧ (r.assignedIds ops).Nodup := by
  have hchain := assignedIds_chain ops r
  refine ⟨hchain, ?_⟩
  have hpw : (r.assignedIds ops).Pairwise (· < ·) :=
    List.chain'_iff_pairwise.mp hchain
  exact hpw.imp (fun h => ne_of_lt h)

/-- C3: a `check_runs` call warns exactly once about each in-flight run
whose DONE flag is false, empties the in-flight set, and therefore a
subsequent `check_runs` call emits no warning at all (in particular it never
reports the same run again); `check_runs` is a total function of its state,
so it never raises and orchestration continues. -/
theorem claim_C3 (r : InternalRunner) (d d' : Nat → Bool) (rid : Nat)
    (hmem : rid ∈ r.runs) (hnodup : r.runs.Nodup) (hdone : d rid = false) :
    (r.check_runs d).2.count rid = 1 ∧
    (r.check_runs d).1.runs = [] ∧
    ((r.check_runs d).1.check_runs d').2 = [] := by
  refine ⟨?_, rfl, rfl⟩
  have hp : (!d rid) = true := by simp [hdone]
  have h1 : (r.runs.filter (fun id => !d id)).count rid = r.runs.count rid :=
    List.count_filter hp
  have h2 : r.runs.count rid = 1 := List.count_eq_one_of_mem hnodup hmem
  simpa [InternalRunner.check_runs, h1] using h2

/-- C3, instantiated: two in-flight runs, neither done. -/
theorem claim_C3_witness :
    ((InternalRunner.mk [0, 1] 2).check_runs (fun _ => false)).2.count 0 = 1 ∧
    ((InternalRunner.mk [0, 1] 2).check_runs (fun _ => false)).1.runs = [] ∧
    (((InternalRunner.mk [0, 1] 2).check_runs (fun _ => false)).1.check_runs
      (fun _ => false)).2 = [] :=
  claim_C3 (InternalRunner.mk [0, 1] 2) (fun _ => false) (fun _ => false) 0
    (by decide) (by decide) rfl

/-- Looking a name up in a keyed map built over a name list. -/
theorem lookup_names_map (f : String → String) (n : String) :
    ∀ names : List String,
      (names.map (fun m => (m, f m))).lookup n =
        if n ∈ names then some (f n) else none := by
  intro names
  induction names with
  | nil => simp
  | cons m tl ih =>
    by_cases h : n = m
    · subst h
      simp [List.lookup]
    · have hbeq : (n == m) = false := by simp [h]
      simp [List.lookup, hbeq, ih, h]

/-- A name that is not a field of a row has no value in it. -/
theorem getField_eq_none_of_not_mem (n : String) :
    ∀ params : Row, n ∉ dtypeNames params → getField params n = none := by
  intro params
  induction params with
  | nil => intro _; rfl
  | cons p tl ih =>
    intro h
    obtain ⟨k, v⟩ := p
    have hk : n ≠ k := by
      intro hnk
      exact h (by simp [dtypeNames, hnk])
    have htl : n ∉ dtypeNames tl := by
      intro hmem
      exact h (by simp [dtypeNames] at hmem ⊢; exact Or.inr hmem)
    have hbeq : (n == k) = false := by simp [hk]
    simpa [getField, List.lookup, hbeq] using ih htl

/-- A name that is a field of a row has a value in it. -/
theorem getField_isSome_of_mem (n : String) :
    ∀ params : Row, n ∈ dtypeNames params → ∃ v, getField params n = some v := by
  intro params
  induction params with
  | nil => intro h; simp [dtypeNames] at h
  | cons p tl ih =>
    intro h
    obtain ⟨k, v⟩ := p
    by_cases hk : n = k
    · subst hk
      exact ⟨v, by simp [getField, List.lookup]⟩
    · have htl : n ∈ dtypeNames tl := by
        simp [dtypeNames] at h ⊢
        exact h.resolve_left hk
      have hbeq : (n == k) = false := by simp [hk]
      obtain ⟨w, hw⟩ := ih htl
      exact ⟨w, by simpa [getField, List.lookup, hbeq] using hw⟩

/-- The `SafeDict` over `rec2dict(params)` resolves every placeholder name,
to the rendered field value when the name is a field of the row and to the
untouched placeholder text otherwise. -/
theorem safeDict_rec2dict (render : ℚ → String) (params : Row) (n : String) :
    SafeDict.get (rec2dict render params) n =
      some (specSubstTok render params (.ph n)) := by
  unfold SafeDict.get rec2dict
  rw [lookup_names_map]
  by_cases h : n ∈ dtypeNames params
  · obtain ⟨v, hv⟩ := getField_isSome_of_mem n params h
    simp [h, hv, specSubstTok]
  · simp [h, getField_eq_none_of_not_mem n params h, specSubstTok]

/-- C6: `fill_template` (via `format_map` over a `SafeDict` of the row)
never raises a missing-key error, substitutes each placeholder whose name is
a field of the row with that field's value, and leaves every other
placeholder untouched in the written file — the result is exactly the
spec-side rewrite `specFillTemplate`. -/
theorem claim_C6 (render : ℚ → String) (content : List Tok) (params : Row) :
    fill_template render content params =
      .ok (specFillTemplate render params content) := by
  unfold fill_template
  induction content with
  | nil => rfl
  | cons t ts ih =>
    cases t with
    | lit s =>
      simp [strFormatMap, ih, specFillTemplate, specSubstTok, Except.bind]
    | ph n =>
      simp [strFormatMap, safeDict_rec2dict render params n, ih,
        specFillTemplate, Except.bind]

/-- On a row containing the field, writing the field then reading it gives
back the written value. -/
theorem setField_lookup_self (output : Row) (name : String) (v : ℚ)
    (h : name ∈ dtypeNames output) :
    getField (setField output name v) name = some v := by
  induction output with
  | nil => simp [dtypeNames] at h
  | cons p tl ih =>
    obtain ⟨k, w⟩ := p
    simp only [setField, List.map_cons]
    by_cases hk : k = name
    · subst hk
      rw [show (if (k, w).1 = k then (k, v) else (k, w)) = (k, v) from if_pos rfl]
      simp [getField, List.lookup]
    · rw [show (if (k, w).1 = name then (name, v) else (k, w)) = (k, w) from if_neg hk]
      have hbeq : (name == k) = false := by
        simp
        exact fun hh => hk hh.symm
      have htl : name ∈ dtypeNames tl := by
        simp [dtypeNames] at h ⊢
        exact h.resolve_left (fun hh => hk hh.symm)
      have hrec := ih htl
      simp only [setField] at hrec
      simpa [getField, List.lookup, hbeq] using hrec

/-- The kwargs override of `MockupWorker.run` coincides with defaulted field
lookup. -/
theorem pick_eq_getD (input : Row) (name : String) (dflt : ℚ) :
    (if name ∈ dtypeNames input then (getField input name).getD dflt else dflt) =
      (getField input name).getD dflt := by
  by_cases h : name ∈ dtypeNames input
  · simp [h]
  · simp [h, getField_eq_none_of_not_mem name input h]

/-- C7: `MockupWorker.run` is a deterministic computable function of its
input row — when `f` is a field of the output schema, the output field `f`
equals `mockup_f` applied to the input fields `r, u, v, a, b`, each missing
field replaced by the defaults `r = 1/4`, `u = 1/2`, `v = 1/2`, `a = 1`,
`b = 3`; and equal input and output rows produce equal outputs. -/
theorem claim_C7 (input output : Row) (h : "f" ∈ dtypeNames output) :
    getField (MockupWorker.run input output) "f" =
      some (mockup_f ((getField input "r").getD (1/4))
        ((getField input "u").getD (1/2)) ((getField input "v").getD (1/2))
        ((getField input "a").getD 1) ((getField input "b").getD 3)) ∧
    (∀ input₂ output₂, input = input₂ → output = output₂ →
      MockupWorker.run input output = MockupWorker.run input₂ output₂) := by
  constructor
  · simp only [MockupWorker.run]
    rw [if_pos h, setField_lookup_self output "f" _ h,
      pick_eq_getD, pick_eq_getD, pick_eq_getD, pick_eq_getD, pick_eq_getD]
  · rintro input₂ output₂ rfl rfl
    rfl

/-- C7, instantiated: an input row providing only `u`, an output schema with
field `f`. -/
theorem claim_C7_witness :
    getField (MockupWorker.run [("u", (3 : ℚ))] [("f", (0 : ℚ))]) "f" =
      some (mockup_f ((getField [("u", (3 : ℚ))] "r").getD (1/4))
        ((getField [("u", (3 : ℚ))] "u").getD (1/2))
        ((getField [("u", (3 : ℚ))] "v").getD (1/2))
        ((getField [("u", (3 : ℚ))] "a").getD 1)
        ((getField [("u", (3 : ℚ))] "b").getD 3)) ∧
    (∀ input₂ output₂, [("u", (3 : ℚ))] = input₂ → [("f", (0 : ℚ))] = output₂ →
      MockupWorker.run [("u", (3 : ℚ))] [("f", (0 : ℚ))] =
        MockupWorker.run input₂ output₂) :=
  claim_C7 [("u", (3 : ℚ))] [("f", (0 : ℚ))] (by decide)

/-- C8, counterexample: for a label registry like the `runner` one
(registered classes `local`, `slurm` and the fallback `default`), an
entries dict whose `class` value is the unregistered string `bogus` does
not make construction fail: the sub config is constructed from the
`default` entry (with a warning), refuting the claim that an unknown class
identifier fails fast with an `InvalidConfiguration` error. -/
theorem claim_C8_counterexample :
    create_subconfig_class ["local", "slurm", "default"] "bogus" =
      SubconfigOutcome.constructed "default" ["bogus"] ∧
    create_subconfig_class ["local", "slurm", "default"] "bogus" ≠
      SubconfigOutcome.raised := by
  constructor
  · decide
  · decide

/-- C8, amended: constructing a sub configuration from an unregistered
class string does not raise `InvalidConfiguration`; it falls back to the
label's registered `default` entry (`DefaultConfig`), issuing a warning
naming the unknown class, and only when no `default` entry is registered
does the `KeyError` propagate. -/
theorem claim_C8 (registered : List String) (cls : String)
    (h : cls ∉ registered) :
    create_subconfig_class registered cls =
      if "default" ∈ registered then SubconfigOutcome.constructed "default" [cls]
      else SubconfigOutcome.raised := by
  unfold create_subconfig_class
  rw [if_neg h]

/-- C8, instantiated: the unregistered class `bogus` against the registry
of the `runner` label. -/
theorem claim_C8_witness :
    create_subconfig_class ["local", "slurm", "default"] "bogus" =
      if "default" ∈ ["local", "slurm", "default"] then
        SubconfigOutcome.constructed "default" ["bogus"]
      else SubconfigOutcome.raised :=
  claim_C8 ["local", "slurm", "default"] "bogus" (by decide)

/-- C9, counterexample: `DefaultConfig.update` applied to a field name that
is neither an existing attribute nor a registered label installs the field
as a dynamic attribute while returning no warning, no validation error and
no extra-fields list — a silent dynamic attribute, refuting the claim. -/
theorem claim_C9_counterexample :
    ∃ c', DefaultConfig.update ⟨[], []⟩ [("bogus", CVal.atom "x")] =
        Except.ok (c', ([] : List String)) ∧
      ("bogus", CVal.atom "x") ∈ c'.attrs := by
  refine ⟨⟨[("bogus", CVal.atom "x")], []⟩, rfl, by simp⟩

/-- C9, amended: an entries field whose name is neither an existing
attribute nor a registered label *is* installed as a dynamic attribute:
`AbstractConfig.update` appends it and issues a warning naming the field
(no error, no extra-fields list), and `DefaultConfig.update` appends it
silently. -/
theorem claim_C9 (c : ConfigObj) (name : String) (v : CVal)
    (h1 : name ∉ c.attrs.map Prod.fst) (h2 : name ∉ c.labels.map String.toLower) :
    AbstractConfig.update c [(name, v)] =
      .ok ({ c with attrs := c.attrs ++ [(name, v)] }, [name]) ∧
    DefaultConfig.update c [(name, v)] =
      .ok ({ c with attrs := c.attrs ++ [(name, v)] }, []) := by
  have hcond : ¬(name ∈ c.attrs.map Prod.fst ∨ name ∈ c.labels.map String.toLower) := by
    rintro (hh | hh)
    · exact h1 hh
    · exact h2 hh
  constructor
  · have habs : AbstractConfig.updateOne c name v =
        .ok ({ c with attrs := c.attrs ++ [(name, v)] }, [name]) := by
      unfold AbstractConfig.updateOne
      rw [if_neg hcond]
      unfold setattrC
      rw [if_neg h1]
    simp [AbstractConfig.update, habs, Except.bind]
  · have hdef : DefaultConfig.updateOne c name v =
        .ok ({ c with attrs := c.attrs ++ [(name, v)] }, []) := by
      unfold DefaultConfig.updateOne
      rw [if_neg hcond]
      unfold setattrC
      rw [if_neg h1]
    simp [DefaultConfig.update, hdef, Except.bind]

/-- C9, instantiated: updating a config having one known attribute with one
unknown field. -/
theorem claim_C9_witness :
    AbstractConfig.update ⟨[("known", CVal.atom "k")], []⟩ [("bogus", CVal.atom "x")] =
      .ok (⟨[("known", CVal.atom "k"), ("bogus", CVal.atom "x")], []⟩, ["bogus"]) ∧
    DefaultConfig.update ⟨[("known", CVal.atom "k")], []⟩ [("bogus", CVal.atom "x")] =
      .ok (⟨[("known", CVal.atom "k"), ("bogus", CVal.atom "x")], []⟩, []) :=
  claim_C9 ⟨[("known", CVal.atom "k")], []⟩ "bogus" (CVal.atom "x")
    (by decide) (by simp)

/-- With `overwrite=True` the loop of `fill_run_dir` never raises: every
already-existing run directory is removed, re-created from the template and
filled, in index order. -/
theorem fillRunDirLoop_overwrite (d : Nat → Bool) :
    ∀ (ks : List Nat) (acc : List FsEvent),
      fillRunDirLoop d true ks acc =
        .ok (acc ++ (ks.flatMap fun k =>
          if d k then [.rmtree k, .copy_template k, .fill_template k]
          else [.copy_template k, .fill_template k]) ++ [.write_input]) := by
  intro ks
  induction ks with
  | nil => intro acc; simp [fillRunDirLoop]
  | cons k tl ih =>
    intro acc
    by_cases hd : d k
    · simp [fillRunDirLoop, hd, ih]
    · simp [fillRunDirLoop, hd, ih]

/-- With `overwrite=False`, the loop raises at the first run index whose
directory exists, having touched only strictly earlier indices. -/
theorem fillRunDirLoop_error (d : Nat → Bool) (k₀ : Nat) (hd : d k₀ = true) :
    ∀ (ks : List Nat) (acc : List FsEvent),
      ks.Pairwise (· < ·) → k₀ ∈ ks →
      (∀ j ∈ ks, j < k₀ → d j = false) →
      (∀ e ∈ acc, ∀ k, FsEvent.idx e = some k → k < k₀) →
      ∃ tr, fillRunDirLoop d false ks acc = .error (k₀, tr) ∧
        ∀ e ∈ tr, ∀ k, FsEvent.idx e = some k → k < k₀ := by
  intro ks
  induction ks with
  | nil =>
    intro acc _ hmem
    simp at hmem
  | cons k tl ih =>
    intro acc hpw hmem hmin hacc
    have hpw' := List.pairwise_cons.mp hpw
    by_cases hdk : d k
    · have hkk : k = k₀ := by
        rcases List.mem_cons.mp hmem with h | hmem'
        · exact h.symm
        · have hlt : k < k₀ := hpw'.1 k₀ hmem'
          have hfalse := hmin k (List.mem_cons_self _ _) hlt
          rw [hfalse] at hdk
          cases hdk
      subst hkk
      exact ⟨acc, by simp [fillRunDirLoop, hdk], hacc⟩
    · have hmem' : k₀ ∈ tl := by
        rcases List.mem_cons.mp hmem with h | hmem'
        · rw [h] at hd
          exact absurd hd hdk
        · exact hmem'
      have hklt : k < k₀ := hpw'.1 k₀ hmem'
      have hacc' : ∀ e ∈ acc ++ [FsEvent.copy_template k, FsEvent.fill_template k],
          ∀ m, FsEvent.idx e = some m → m < k₀ := by
        intro e he m hm
        rcases List.mem_append.mp he with he | he
        · exact hacc e he m hm
        · simp at he
          rcases he with rfl | rfl <;>
            (simp [FsEvent.idx] at hm; omega)
      obtain ⟨tr, htr, hp⟩ := ih (acc ++ [.copy_template k, .fill_template k])
        hpw'.2 hmem' (fun j hj hlt => hmin j (List.mem_cons_of_mem _ hj) hlt) hacc'
      exact ⟨tr, by simpa [fillRunDirLoop, hdk] using htr, hp⟩

/-- C10: run directories are processed in increasing index order; with
`overwrite=False` the loop raises `RuntimeError` at the first (least)
existing run directory, without having touched that directory (every
filesystem event so far concerns a strictly smaller index); with
`overwrite=True` every existing run directory is first removed, then
re-created from the template, then filled, and the whole trace is emitted
in increasing index order. -/
theorem claim_C10 (size : Nat) (d : Nat → Bool) :
    (∀ k₀, k₀ < size → d k₀ = true → (∀ j, j < k₀ → d j = false) →
      ∃ tr, fill_run_dir size d false = .error (k₀, tr) ∧
        ∀ e ∈ tr, ∀ k, FsEvent.idx e = some k → k < k₀) ∧
    fill_run_dir size d true =
      .ok ((List.range size).flatMap (fun k =>
        if d k then [.rmtree k, .copy_template k, .fill_template k]
        else [.copy_template k, .fill_template k]) ++ [.write_input]) := by
  constructor
  · intro k₀ hk hd hmin
    have hres := fillRunDirLoop_error d k₀ hd (List.range size) []
      (List.pairwise_lt_range size) (List.mem_range.mpr hk)
      (fun j _ hlt => hmin j hlt) (by simp)
    simpa [fill_run_dir] using hres
  · have hres := fillRunDirLoop_overwrite d (List.range size) []
    simpa [fill_run_dir] using hres

/-- C10, instantiated: three runs where only directory 1 pre-exists. -/
theorem claim_C10_witness :
    (∃ tr, fill_run_dir 3 (fun k => k == 1) false = .error (1, tr) ∧
      ∀ e ∈ tr, ∀ k, FsEvent.idx e = some k → k < 1) ∧
    fill_run_dir 3 (fun k => k == 1) true =
      .ok ((List.range 3).flatMap (fun k =>
        if (fun k => k == 1) k then [.rmtree k, .copy_template k, .fill_template k]
        else [.copy_template k, .fill_template k]) ++ [.write_input]) :=
  ⟨(claim_C10 3 (fun k => k == 1)).1 1 (by decide) (by decide) (by decide),
   (claim_C10 3 (fun k => k == 1)).2⟩

end Profit
